import Mathlib

/-!
Verification development for the StreamPulse data-acquisition and rotation
pipeline.  Each definition is a shallow embedding of the corresponding
Python function of the repository (file and function are named in the doc
comments); network and filesystem effects are made explicit as oracle
functions and state records, and instrumentation counters record how many
network calls were made.
-/

namespace StreamPulse

/-! ## Feed fetching with retry (src/ui/feeds.py) -/

/-- One parsed story entry (a feedparser entry). -/
structure Entry where
  title : String
  link : String
  description : String
deriving DecidableEq, Repr

/-- A parsed feed: what `fetch_rss_feed` / feedparser hands back
(only `feed.entries` matters to the pipeline). -/
structure Feed where
  entries : List Entry
deriving DecidableEq, Repr

/-- The constant `RETRY_LIMIT = 3` from src/ui/feeds.py. -/
def RETRY_LIMIT : Nat := 3

/-- The module-level mutable state of src/ui/feeds.py touched by
`fetch_with_retry`: the `DISABLED_FEEDS` set, plus an instrumentation
counter of how many network fetch attempts (calls of `fetch_rss_feed`)
have been performed so far in the process. -/
structure FeedState where
  disabled : List String
  calls : Nat
deriving DecidableEq, Repr

/-- The network as seen by `fetch_with_retry`: the outcome of the n-th
network attempt of the process.  `none` stands for an exception escaping
`fetch_rss_feed`; `some feed` for a parsed feed (possibly with zero
entries). -/
def FetchOracle := Nat → Option Feed

/-- The success test of `fetch_with_retry`: `if feed and feed.entries:`
returns the feed, otherwise `ValueError` is raised and caught by the
retry handler, so an attempt succeeds exactly when it produced a feed
with at least one entry. -/
def attemptOk (o : Option Feed) : Option Feed :=
  match o with
  | some feed => if feed.entries = [] then none else some feed
  | none => none

/-- Boolean form of a failed attempt (used to state hypotheses about
oracles): an attempt fails when it raised or yielded zero entries. -/
def attemptFailed (o : Option Feed) : Bool :=
  match o with
  | none => true
  | some feed => feed.entries.isEmpty

/-- Shallow embedding of `fetch_with_retry` (src/ui/feeds.py, lines
66-102).  A URL already in `DISABLED_FEEDS` is returned `None` without
touching the network; otherwise one network attempt is made, and on
failure the function recurses with `retries + 1` while
`retries < RETRY_LIMIT`, finally adding the URL to `DISABLED_FEEDS` and
returning `None`. -/
def fetch_with_retry (oracle : FetchOracle) (feed_url : String) (retries : Nat)
    (st : FeedState) : Option Feed × FeedState :=
  if feed_url ∈ st.disabled then
    (none, st)
  else
    let st1 : FeedState := { st with calls := st.calls + 1 }
    match attemptOk (oracle st.calls) with
    | some feed => (some feed, st1)
    | none =>
      if _h : retries < RETRY_LIMIT then
        fetch_with_retry oracle feed_url (retries + 1) st1
      else
        (none, { st1 with disabled := feed_url :: st1.disabled })
termination_by RETRY_LIMIT + 1 - retries
decreasing_by omega

/-- Oracle for the C1 counterexample: the first `RETRY_LIMIT` network
attempts of the process fail with an exception, the fourth one succeeds
with a one-entry feed. -/
def cexOracle : FetchOracle := fun n =>
  if n < RETRY_LIMIT then none
  else some { entries := [{ title := "story", link := "l", description := "d" }] }

/-- Loop body of `fetch_feed_entries` (src/ui/feeds.py, lines 188-194):
each successfully fetched feed contributes `feed.entries[:3]` to the
category's entry list; a failed fetch contributes nothing. -/
def fetch_feed_entries_step (oracle : FetchOracle) (acc : List Entry × FeedState)
    (feed_url : String) : List Entry × FeedState :=
  match fetch_with_retry oracle feed_url 0 acc.2 with
  | (some feed, st2) => (acc.1 ++ feed.entries.take 3, st2)
  | (none, st2) => (acc.1, st2)

/-- Shallow embedding of `fetch_feed_entries` (src/ui/feeds.py, lines
184-202): fetches every URL of the category in order and collects at
most the first 3 entries of each feed. -/
def fetch_feed_entries (oracle : FetchOracle) (rss_feeds : List String)
    (st : FeedState) : List Entry × FeedState :=
  rss_feeds.foldl (fetch_feed_entries_step oracle) ([], st)

/-! ## fetch_rss_feed (src/api/fetchers.py, lines 105-170) -/

/-- What `feedparser.parse(content)` returns: the bozo flag and the
entry list. -/
structure ParsedFeed where
  bozo : Bool
  entries : List Entry
deriving DecidableEq, Repr

/-- An HTTP response as consumed by `fetch_rss_feed`, together with the
outcome of the two pure processing steps applied to its body:
`parsed` is `feedparser.parse(content)` and `scraped` is the entry list
`attempt_html_scraping(content, feed_url)` would extract. -/
structure HttpResp where
  status : Nat
  contentType : String
  parsed : ParsedFeed
  scraped : List Entry
deriving DecidableEq, Repr

/-- The possible outcomes of the network call inside `fetch_rss_feed`:
a response, a DNS/connector error (`aiohttp.ClientConnectorError`,
absorbed into an empty feed), or another client error
(`aiohttp.ClientError`, re-raised as `NetworkError`). -/
inductive FetchResponse where
  | ok (resp : HttpResp)
  | dnsError
  | netError
deriving DecidableEq, Repr

/-- The `valid_content_types` list from `fetch_rss_feed`. -/
def valid_content_types : List String :=
  ["application/rss+xml", "application/xml", "text/xml",
   "application/atom+xml", "application/json", "text/html"]

/-- Substring test (`valid_type in content_type` in Python). -/
def strContains (s pat : String) : Bool :=
  let sc := s.toList
  let pc := pat.toList
  (List.range (sc.length + 1)).any (fun i => ((sc.drop i).take pc.length) == pc)

/-- Character-level prefix test used to model Python `.startswith`. -/
def prefixChars : List Char → List Char → Bool
  | [], _ => true
  | _ :: _, [] => false
  | a :: as, b :: bs => a == b && prefixChars as bs

/-- Python `.lower()`, modelled character by character. -/
def toLowerAscii (s : String) : String := String.mk (s.toList.map Char.toLower)

/-- Python `.startswith(pat)`. -/
def strStartsWith (s pat : String) : Bool := prefixChars pat.toList s.toList

/-- Shallow embedding of `fetch_rss_feed` (src/api/fetchers.py, lines
105-170).  `none` models an exception propagating to the caller
(`NetworkError`); a 404, redirect, client-error or server-error status
yields `{'entries': []}`; a valid content type is parsed, falling back
to HTML scraping on bozo feeds and on feeds with zero parsed entries;
any other content type goes straight to HTML scraping. -/
def fetch_rss_feed (r : FetchResponse) : Option Feed :=
  match r with
  | .dnsError => some { entries := [] }
  | .netError => none
  | .ok resp =>
    if resp.status = 404 then some { entries := [] }
    else if 300 ≤ resp.status ∧ resp.status < 400 then some { entries := [] }
    else if 400 ≤ resp.status ∧ resp.status < 500 then some { entries := [] }
    else if 500 ≤ resp.status ∧ resp.status < 600 then some { entries := [] }
    else
      let content_type := toLowerAscii resp.contentType
      if valid_content_types.any (fun t => strContains content_type t) then
        if resp.parsed.bozo then some { entries := resp.scraped }
        else if resp.parsed.entries = [] then some { entries := resp.scraped }
        else some { entries := resp.parsed.entries }
      else some { entries := resp.scraped }

/-- A `fetch_with_retry` oracle built from a stream of HTTP-level
outcomes: attempt n performs `fetch_rss_feed` on the n-th outcome. -/
def feedOracle (resps : Nat → FetchResponse) : FetchOracle :=
  fun n => fetch_rss_feed (resps n)

/-! ## Story rotation (src/ui/feeds.py, lines 204-225 and
src/ui/feed_manager.py, lines 58-86) -/

/-- The global `feed_queue` consumed by `show_next_story`: a FIFO queue
of `(category_name, entries)` pairs. -/
structure RotationState where
  feedQueue : List (String × List Entry)
deriving DecidableEq, Repr

/-- Shallow embedding of one rotation tick, `show_next_story`
(src/ui/feeds.py, lines 204-225).  `feed_queue.get_nowait()` removes the
`(category, entries)` pair from the queue (or hits `queue.Empty`); when
the pair matches the tick's category and is non-empty, the head story is
displayed and `entries.pop(0)` / `entries.append(story)` rotate the
dequeued list in place — but that list object is never re-enqueued, so
the rotated list is dropped with the pair. -/
def show_next_story (category_name : String) (st : RotationState) :
    Option Entry × RotationState :=
  match st.feedQueue with
  | [] => (none, st)
  | (category, entries) :: rest =>
    match entries with
    | story :: _tail =>
      if category = category_name then
        (some story, { feedQueue := rest })
      else
        (none, { feedQueue := rest })
    | [] => (none, { feedQueue := rest })

/-- Runs `n` consecutive timer ticks of `show_next_story` for one category,
collecting the story displayed at each tick (`none` when the tick
displayed nothing). -/
def runTicks (category_name : String) : Nat → RotationState →
    List (Option Entry) × RotationState
  | 0, st => ([], st)
  | n + 1, st =>
    let t := show_next_story category_name st
    let r := runTicks category_name n t.2
    (t.1 :: r.1, r.2)

/-- Concrete story used by the C4 failing input. -/
def storyOne : Entry := { title := "Story One", link := "http://a", description := "first" }

/-- Concrete story used by the C4 failing input. -/
def storyTwo : Entry := { title := "Story Two", link := "http://b", description := "second" }

/-! ## Image cache (src/api/fetchers.py, lines 193-264) -/

/-- The constant `CACHE_DIR` from src/api/fetchers.py. -/
def CACHE_DIR : String := "../../cache/images"

/-- Shallow embedding of `cache_image_path` (src/api/fetchers.py, lines
193-201): the cache file name is the md5 hex digest of the URL plus
".png"; the digest function is passed in as a parameter `md5hex`.  The
key depends on the URL alone — width and height do not enter. -/
def cache_image_path (md5hex : String → String) (url : String) : String :=
  CACHE_DIR ++ "/" ++ md5hex url ++ ".png"

/-- A QPixmap as relevant to the claims: either loaded from a cache
file, or the bundled default image resized to the requested size. -/
inductive Pixmap where
  | fromFile (path : String)
  | defaultImage (width height : Nat)
deriving DecidableEq, Repr

/-- An HTTP response to an image request, with the outcome of decoding
its body folded in: `decodable` is whether `Image.open` and `verify`
succeed on the bytes. -/
structure ImgResp where
  contentType : String
  contentLength : Option Nat
  decodable : Bool
deriving DecidableEq, Repr

/-- Outcome of the network call inside `fetch_image`. -/
inductive ImgFetch where
  | ok (r : ImgResp)
  | netError
deriving DecidableEq, Repr

/-- The filesystem state of the image cache plus an instrumentation
counter of network calls issued by `fetch_image`. -/
structure ImageCacheState where
  files : List String
  netCalls : Nat
deriving DecidableEq, Repr

/-- Shallow embedding of `load_default_image` (src/api/fetchers.py,
lines 249-264), assuming the bundled default asset is present. -/
def load_default_image (width height : Nat) : Pixmap :=
  .defaultImage width height

/-- The size check of `fetch_image`: `content_length and
int(content_length) > max_file_size` (no check when the header is
absent). -/
def content_length_exceeds (contentLength : Option Nat) (max_file_size : Nat) : Bool :=
  match contentLength with
  | some n => max_file_size < n
  | none => false

/-- Shallow embedding of `fetch_image` (src/api/fetchers.py, lines
203-247).  A cache hit returns `QPixmap(cached_path)` with no network
call.  On a miss, the image is fetched; a non-image content type, an
excessive Content-Length, a failed decode or a network error all fall to
the exception handler, which returns the default image and stores
nothing; on success the processed image is saved under the cache key and
`QPixmap(cached_path)` is returned.  Resizing and transparency
flattening never fail and do not affect the cache key, so they are not
modelled. -/
def fetch_image (md5hex : String → String) (net : String → ImgFetch) (url : String)
    (width height : Nat) (max_file_size : Nat) (st : ImageCacheState) :
    Pixmap × ImageCacheState :=
  let cached_path := cache_image_path md5hex url
  if cached_path ∈ st.files then
    (.fromFile cached_path, st)
  else
    let st1 : ImageCacheState := { st with netCalls := st.netCalls + 1 }
    match net url with
    | .netError => (load_default_image width height, st1)
    | .ok r =>
      if !(strStartsWith (toLowerAscii r.contentType) "image/") then
        (load_default_image width height, st1)
      else if content_length_exceeds r.contentLength max_file_size then
        (load_default_image width height, st1)
      else if !r.decodable then
        (load_default_image width height, st1)
      else
        (.fromFile cached_path, { st1 with files := cached_path :: st1.files })

/-! ## Stock prices with provider fallback (src/api/fetchers.py, lines
273-322) -/

/-- Outcome of one Alpha Vantage request inside `fetch_stock_price`:
`price` when the JSON carries `Global Quote`/`05. price`, `noData` when
it parses but does not, `netError` for an `aiohttp.ClientError` caught
by the handler, and `exn` for an exception escaping the handler — e.g.
`asyncio.TimeoutError` from the 15-second timeout, or a JSON decode
error raised by `response.json()`, neither of which is an
`aiohttp.ClientError`. -/
inductive AlphaResp where
  | price (p : String)
  | noData
  | netError
  | exn
deriving DecidableEq, Repr

/-- What `fetch_from_yahoo_finance` returns: a formatted price string or
a typed error value. -/
inductive StockQuote where
  | price (p : String)
  | error (msg : String)
deriving DecidableEq, Repr

/-- The module-level state of src/api/fetchers.py touched by
`fetch_stock_price`: the `alpha_vantage_failed` latch, plus an
instrumentation counter of Alpha Vantage requests issued. -/
structure StockState where
  alpha_vantage_failed : Bool
  alphaCalls : Nat
deriving DecidableEq, Repr

/-- Shallow embedding of the body of `fetch_stock_price`
(src/api/fetchers.py, lines 273-302), i.e. one tenacity attempt.  When
the latch is set, or no API key is configured, the request goes
straight to Yahoo Finance.  Otherwise Alpha Vantage is queried: missing
price data or a caught client error sets the latch and falls back to
Yahoo Finance for the same symbol, while an exception escaping the
`except aiohttp.ClientError` handler propagates out of the body
(`none`) with the latch left unset. -/
def fetch_stock_price (hasApiKey : Bool) (alpha : Nat → AlphaResp)
    (yahoo : String → StockQuote) (symbol : String) (st : StockState) :
    Option StockQuote × StockState :=
  if st.alpha_vantage_failed || !hasApiKey then
    (some (yahoo symbol), st)
  else
    let st1 : StockState := { st with alphaCalls := st.alphaCalls + 1 }
    match alpha st.alphaCalls with
    | .price p => (some (.price p), st1)
    | .noData => (some (yahoo symbol), { st1 with alpha_vantage_failed := true })
    | .netError => (some (yahoo symbol), { st1 with alpha_vantage_failed := true })
    | .exn => (none, st1)

/-- The `stop_after_attempt(5)` bound of the tenacity decorator on
`fetch_stock_price`. -/
def STOP_AFTER_ATTEMPT : Nat := 5

/-- The tenacity `@retry(wait=wait_exponential(...),
stop=stop_after_attempt(5), reraise=True)` decorator applied to
`fetch_stock_price` (src/api/fetchers.py, line 273): an exception
escaping the body is retried (after a backoff wait) until the attempt
budget is spent, then reraised (`none`); a normal return passes
through.  A call of the decorated function passes `STOP_AFTER_ATTEMPT`
as the budget. -/
def fetch_stock_price_retry (hasApiKey : Bool) (alpha : Nat → AlphaResp)
    (yahoo : String → StockQuote) (symbol : String) :
    Nat → StockState → Option StockQuote × StockState
  | 0, st => (none, st)
  | attempts + 1, st =>
    match fetch_stock_price hasApiKey alpha yahoo symbol st with
    | (some q, st2) => (some q, st2)
    | (none, st2) =>
      if attempts = 0 then (none, st2)
      else fetch_stock_price_retry hasApiKey alpha yahoo symbol attempts st2

/-! ## Loading-screen progress (src/ui/feeds.py, lines 104-178 and
src/ui/loading_screen.py, lines 131-208) -/

/-- Completion events during startup loading: one feed finished
processing (success or failure), or the stock-data thread delivered its
result. -/
inductive LoadEvent where
  | feedDone
  | stockDone
deriving DecidableEq, Repr

/-- One progress emission `update_progress(progress, message)`, recorded
with the value of `loaded_feeds[0]` and of the stock-completion flag at
the moment of emission. -/
structure Emission where
  value : ℚ
  loadedFeeds : Nat
  stockLoaded : Bool
deriving DecidableEq, Repr

/-- The progress value computed by `update_progress_callback`
(src/ui/feeds.py, line 144): `(loaded_feeds[0] / total_feeds) * 100`. -/
def progress_value (total loaded : Nat) : ℚ :=
  (loaded : ℚ) / (total : ℚ) * 100

/-- Number of feed-completion events in a trace. -/
def countFeedDone : List LoadEvent → Nat
  | [] => 0
  | .feedDone :: es => countFeedDone es + 1
  | .stockDone :: es => countFeedDone es

/-- Shallow embedding of the progress emissions during startup loading.
Each `feedDone` event runs `update_progress_callback` (src/ui/feeds.py,
lines 127-145): it increments `loaded_feeds[0]` and emits the feed
fraction.  When the last feed completes, `on_feeds_loaded` sets
`feed_loaded[0]` and calls `check_if_complete`
(src/ui/loading_screen.py, lines 189-208), which emits 100 only when
both flags are set; the `stockDone` event sets `stock_loaded[0]` and
calls `check_if_complete` likewise. -/
def runLoading (total : Nat) : List LoadEvent → Nat → Bool → Bool → List Emission
  | [], _, _, _ => []
  | .feedDone :: es, loaded, feedLoaded, stockLoaded =>
    let l := loaded + 1
    let e : Emission := { value := progress_value total l, loadedFeeds := l, stockLoaded := stockLoaded }
    if l = total then
      if stockLoaded then
        e :: { value := 100, loadedFeeds := l, stockLoaded := true } :: runLoading total es l true true
      else
        e :: runLoading total es l true stockLoaded
    else
      e :: runLoading total es l feedLoaded stockLoaded
  | .stockDone :: es, loaded, feedLoaded, _ =>
    if feedLoaded then
      { value := 100, loadedFeeds := loaded, stockLoaded := true } :: runLoading total es loaded feedLoaded true
    else
      runLoading total es loaded feedLoaded true

/-! ## Sentiment analysis (src/api/sentiment.py) -/

/-- Outcome of `list_models`: the model list, or `"error"`. -/
inductive ModelsResult where
  | ok (models : List String)
  | error
deriving DecidableEq, Repr

/-- Outcome of the generate request inside `analyze_text`. -/
inductive GenResult where
  | ok (response : String)
  | httpError
  | exn
deriving DecidableEq, Repr

/-- The environment of one `analyze_text` call: what `list_models`
returns, what the generate endpoint returns, and whether the TTS engine
is speaking at the narration check. -/
structure SentConfig where
  models : ModelsResult
  gen : GenResult
  tts_speaking : Bool
deriving DecidableEq, Repr

/-- The module-level state of src/api/sentiment.py touched by
`analyze_text`: the `processed_story_ids` set, instrumentation counters
for the two kinds of Ollama requests, and the narration (TTS) queue. -/
structure SentState where
  processed_story_ids : List String
  listRequests : Nat
  genRequests : Nat
  ttsQueue : List String
deriving DecidableEq, Repr

/-- Possible results of `analyze_text` as relevant to the claims. -/
inductive AnalyzeResult where
  | already_processed
  | error
  | result (s : String)
deriving DecidableEq, Repr

/-- Shallow embedding of `analyze_text` (src/api/sentiment.py, lines
84-188).  A story already in `processed_story_ids` is skipped before any
request is made.  Otherwise `list_models` is called (one request); on
failure or an empty model list an error message is narrated and `error`
returned.  Then the generate request is issued (one request); on success
the lower-cased stripped response is narrated unless the TTS engine is
already speaking, the story id is added to `processed_story_ids`, and
the result returned; client errors and other exceptions narrate an error
message and return `error` without marking the story processed.
Input-text cleaning, model selection and the UI update do not affect the
claims and are not modelled. -/
def analyze_text (cfg : SentConfig) (story_id : String) (st : SentState) :
    AnalyzeResult × SentState :=
  if story_id ∈ st.processed_story_ids then
    (.already_processed, st)
  else
    let st1 : SentState := { st with listRequests := st.listRequests + 1 }
    match cfg.models with
    | .error =>
      (.error, { st1 with ttsQueue := st1.ttsQueue ++ ["Failed to retrieve model list or no models available."] })
    | .ok [] =>
      (.error, { st1 with ttsQueue := st1.ttsQueue ++ ["Failed to retrieve model list or no models available."] })
    | .ok (_m :: _ms) =>
      let st2 : SentState := { st1 with genRequests := st1.genRequests + 1 }
      match cfg.gen with
      | .ok response =>
        let result := response.trim.toLower
        let st3 : SentState :=
          if cfg.tts_speaking then st2
          else { st2 with ttsQueue := st2.ttsQueue ++ ["Sentiment and bias analysis result: " ++ result] }
        (.result result, { st3 with processed_story_ids := story_id :: st3.processed_story_ids })
      | .httpError =>
        (.error, { st2 with ttsQueue := st2.ttsQueue ++ ["Error communicating with Ollama."] })
      | .exn =>
        (.error, { st2 with ttsQueue := st2.ttsQueue ++ ["Unexpected error during sentiment and bias analysis."] })

end StreamPulse
namespace StreamPulse

/-! ## Helper lemmas about fetch_with_retry -/

theorem attemptFailed_iff (o : Option Feed) :
    attemptFailed o = true ↔ attemptOk o = none := by
  cases o with
  | none => simp [attemptFailed, attemptOk]
  | some feed =>
    simp only [attemptFailed, attemptOk, List.isEmpty_iff]
    constructor
    · intro h; simp [h]
    · intro h
      by_cases he : feed.entries = []
      · exact he
      · simp [he] at h

theorem fetch_with_retry_disabled (oracle : FetchOracle) (feed_url : String)
    (retries : Nat) (st : FeedState) (h : feed_url ∈ st.disabled) :
    fetch_with_retry oracle feed_url retries st = (none, st) := by
  rw [fetch_with_retry]
  simp [h]

theorem fetch_with_retry_all_fail (oracle : FetchOracle) (feed_url : String) :
    ∀ (retries : Nat) (st : FeedState),
      feed_url ∉ st.disabled →
      (∀ k, k ≤ RETRY_LIMIT - retries → attemptOk (oracle (st.calls + k)) = none) →
      retries ≤ RETRY_LIMIT →
      fetch_with_retry oracle feed_url retries st =
        (none, { disabled := feed_url :: st.disabled,
                 calls := st.calls + (RETRY_LIMIT - retries) + 1 }) := by
  intro retries st
  induction retries, st using fetch_with_retry.induct oracle feed_url with
  | case1 retries st hdis =>
    intro hdis2 _ _
    exact absurd hdis hdis2
  | case2 retries st hdis feed hok =>
    intro _ hfail _
    have h0 := hfail 0 (Nat.zero_le _)
    rw [Nat.add_zero] at h0
    rw [h0] at hok
    exact absurd hok (by simp)
  | case3 retries st hdis st1 hok hr ih =>
    intro _ hfail hle
    rw [fetch_with_retry]
    simp only [hdis, if_neg, hok]
    rw [dif_pos hr]
    have hres := ih hdis (by
      intro k hk
      have := hfail (k + 1) (by omega)
      simpa [Nat.add_assoc, Nat.add_comm 1 k] using this) (by omega)
    rw [hres]
    show (none, FeedState.mk (feed_url :: st.disabled)
        (st.calls + 1 + (RETRY_LIMIT - (retries + 1)) + 1)) =
      (none, FeedState.mk (feed_url :: st.disabled)
        (st.calls + (RETRY_LIMIT - retries) + 1))
    have harith : st.calls + 1 + (RETRY_LIMIT - (retries + 1)) + 1 =
        st.calls + (RETRY_LIMIT - retries) + 1 := by omega
    rw [harith]
  | case4 retries st hdis hok hr =>
    intro _ _ hle
    have : retries = RETRY_LIMIT := by omega
    subst this
    rw [fetch_with_retry]
    simp only [hdis, if_neg, hok]
    rw [dif_neg hr]
    simp [Nat.sub_self]

theorem fetch_with_retry_no_empty_success (oracle : FetchOracle) (feed_url : String) :
    ∀ (retries : Nat) (st : FeedState) (f : Feed),
      (fetch_with_retry oracle feed_url retries st).1 = some f → f.entries ≠ [] := by
  intro retries st
  induction retries, st using fetch_with_retry.induct oracle feed_url with
  | case1 retries st hdis =>
    intro f h
    rw [fetch_with_retry] at h
    simp [hdis] at h
  | case2 retries st hdis feed hok =>
    intro f h
    rw [fetch_with_retry] at h
    simp [hdis, hok] at h
    subst h
    intro hne
    cases ho : oracle st.calls with
    | none => simp [attemptOk, ho] at hok
    | some g =>
      simp [attemptOk, ho] at hok
      obtain ⟨h1, h2⟩ := hok
      subst h2
      exact h1 hne
  | case3 retries st hdis st1 hok hr ih =>
    intro f h
    rw [fetch_with_retry] at h
    simp [hdis, hok, hr] at h
    exact ih f h
  | case4 retries st hdis hok hr =>
    intro f h
    rw [fetch_with_retry] at h
    simp [hdis, hok, hr] at h

/-! ## C1 -/

/-- C1 counterexample: the claim says that after `RETRY_LIMIT` (3)
consecutive failed fetch attempts the source is added to the disabled
set and no further network call is made to it.  With an oracle failing
on exactly the first 3 attempts, `fetch_with_retry` makes a fourth
network call (calls = 4), returns its feed, and the disabled set stays
empty. -/
theorem C1_counterexample :
    fetch_with_retry cexOracle "http://feed" 0 { disabled := [], calls := 0 } =
      (some { entries := [{ title := "story", link := "l", description := "d" }] },
       { disabled := [], calls := 4 }) := by
  rw [fetch_with_retry]; simp [cexOracle, attemptOk, RETRY_LIMIT]
  rw [fetch_with_retry]; simp [cexOracle, attemptOk, RETRY_LIMIT]
  rw [fetch_with_retry]; simp [cexOracle, attemptOk, RETRY_LIMIT]
  rw [fetch_with_retry]; simp [cexOracle, attemptOk, RETRY_LIMIT]

/-- C1 (amended): after `RETRY_LIMIT + 1` (= 4) consecutive failed fetch
attempts within one `fetch_with_retry` call (the initial attempt plus
`RETRY_LIMIT` retries), the source is added to the disabled set, and
every later `fetch_with_retry` call on a disabled source returns `none`
without making any network call (its state, including the call counter,
is unchanged). -/
theorem C1_disable_after_four_failures (oracle : FetchOracle) (feed_url : String)
    (st : FeedState) (hdis : feed_url ∉ st.disabled)
    (hfail : ∀ k, k < RETRY_LIMIT + 1 → attemptFailed (oracle (st.calls + k)) = true) :
    fetch_with_retry oracle feed_url 0 st =
      (none, { disabled := feed_url :: st.disabled, calls := st.calls + RETRY_LIMIT + 1 })
    ∧ ∀ (oracle2 : FetchOracle) (retries : Nat) (st2 : FeedState),
        feed_url ∈ st2.disabled →
        fetch_with_retry oracle2 feed_url retries st2 = (none, st2) := by
  constructor
  · have h := fetch_with_retry_all_fail oracle feed_url 0 st hdis
      (by
        intro k hk
        exact (attemptFailed_iff _).mp (hfail k (by omega)))
      (Nat.zero_le _)
    rw [h]
    simp [Nat.sub_zero, Nat.add_assoc]
  · intro oracle2 retries st2 h2
    exact fetch_with_retry_disabled oracle2 feed_url retries st2 h2

/-- C1 witness: a concrete always-failing oracle on a fresh state. -/
theorem C1_witness :
    ("http://feed" ∉ ([] : List String)) ∧
    (fetch_with_retry (fun _ => (none : Option Feed)) "http://feed" 0
        { disabled := [], calls := 0 } =
      (none, { disabled := ["http://feed"], calls := 4 })) := by
  refine ⟨by simp, ?_⟩
  have h := (C1_disable_after_four_failures (fun _ => (none : Option Feed)) "http://feed"
    { disabled := [], calls := 0 } (by simp) (by intro k _; rfl)).1
  simpa [RETRY_LIMIT] using h

end StreamPulse
namespace StreamPulse

/-! ## C2 -/

theorem fetch_stock_price_latch_mono (hasApiKey : Bool) (alpha : Nat → AlphaResp)
    (yahoo : String → StockQuote) (symbol : String) (st : StockState)
    (h : (fetch_stock_price hasApiKey alpha yahoo symbol st).2.alpha_vantage_failed = false) :
    st.alpha_vantage_failed = false := by
  cases hfv : st.alpha_vantage_failed with
  | false => rfl
  | true => simp [fetch_stock_price, hfv] at h

theorem fetch_stock_price_retry_latch_mono (hasApiKey : Bool) (alpha : Nat → AlphaResp)
    (yahoo : String → StockQuote) (symbol : String) :
    ∀ (attempts : Nat) (st : StockState),
      (fetch_stock_price_retry hasApiKey alpha yahoo symbol attempts
          st).2.alpha_vantage_failed = false →
      st.alpha_vantage_failed = false := by
  intro attempts
  induction attempts with
  | zero =>
    intro st h
    exact h
  | succ n ih =>
    intro st h
    simp only [fetch_stock_price_retry] at h
    cases hin : fetch_stock_price hasApiKey alpha yahoo symbol st with
    | mk o st2 =>
      rw [hin] at h
      cases o with
      | some q =>
        exact fetch_stock_price_latch_mono hasApiKey alpha yahoo symbol st
          (by rw [hin]; exact h)
      | none =>
        dsimp only at h
        by_cases hn : n = 0
        · rw [if_pos hn] at h
          exact fetch_stock_price_latch_mono hasApiKey alpha yahoo symbol st
            (by rw [hin]; exact h)
        · rw [if_neg hn] at h
          have h2 := ih st2 h
          exact fetch_stock_price_latch_mono hasApiKey alpha yahoo symbol st
            (by rw [hin]; exact h2)

theorem fetch_stock_price_retry_exn (alpha : Nat → AlphaResp)
    (yahoo : String → StockQuote) (symbol : String)
    (hexn : ∀ k, alpha k = AlphaResp.exn) :
    ∀ (n : Nat) (st : StockState),
      st.alpha_vantage_failed = false →
      fetch_stock_price_retry true alpha yahoo symbol (n + 1) st =
        (none, StockState.mk false (st.alphaCalls + (n + 1))) := by
  intro n
  induction n with
  | zero =>
    intro st hl
    simp [fetch_stock_price_retry, fetch_stock_price, hl, hexn st.alphaCalls]
  | succ m ih =>
    intro st hl
    have hin : fetch_stock_price true alpha yahoo symbol st =
        (none, StockState.mk false (st.alphaCalls + 1)) := by
      simp [fetch_stock_price, hl, hexn st.alphaCalls]
    rw [fetch_stock_price_retry.eq_2, hin]
    dsimp only
    rw [if_neg (Nat.succ_ne_zero m)]
    have h2 := ih (StockState.mk false (st.alphaCalls + 1)) rfl
    rw [h2]
    have harith : st.alphaCalls + 1 + (m + 1) = st.alphaCalls + (m + 1 + 1) := by omega
    rw [harith]

/-- C2 counterexample: an Alpha Vantage outage surfacing as an uncaught
exception (the 15-second timeout or a JSON decode error, on every
attempt).  The first decorated call makes all 5 tenacity attempts
against the primary and reraises, yet `alpha_vantage_failed` is still
false afterwards; the next call, for a different symbol, attempts the
primary again — 5 more requests, the counter grows to 10 — instead of
going directly to the secondary.  So the primary has failed in the run,
but subsequent calls do not go straight to Yahoo Finance, refuting the
claim as stated. -/
theorem C2_counterexample :
    fetch_stock_price_retry true (fun _ => AlphaResp.exn)
        (fun _ => StockQuote.price "1.00") "AAPL" STOP_AFTER_ATTEMPT
        (StockState.mk false 0) =
      (none, StockState.mk false 5)
    ∧ (fetch_stock_price_retry true (fun _ => AlphaResp.exn)
        (fun _ => StockQuote.price "1.00") "GOOGL" STOP_AFTER_ATTEMPT
        (StockState.mk false 5)).2.alphaCalls = 10 := by
  constructor <;> rfl

/-- C2 (amended): once a failure of the primary provider is detected by
`fetch_stock_price` — missing price data in the JSON, or an
`aiohttp.ClientError` caught by its handler — the `alpha_vantage_failed`
latch is set; while the latch is set, every `fetch_stock_price` call
for any symbol returns the Yahoo Finance result with the state
(including the Alpha Vantage request counter) unchanged, so the primary
is never attempted; and no code path resets the latch.  An exception
escaping the handler (timeout, JSON decode error) is instead retried up
to the tenacity budget and reraised with the latch left unset. -/
theorem C2_detected_failure_latch :
    (∀ (hasApiKey : Bool) (alpha : Nat → AlphaResp) (yahoo : String → StockQuote)
        (symbol : String) (n : Nat) (st : StockState),
        st.alpha_vantage_failed = true →
        fetch_stock_price_retry hasApiKey alpha yahoo symbol (n + 1) st =
          (some (yahoo symbol), st))
    ∧ (∀ (hasApiKey : Bool) (alpha : Nat → AlphaResp) (yahoo : String → StockQuote)
        (symbol : String) (attempts : Nat) (st : StockState),
        (fetch_stock_price_retry hasApiKey alpha yahoo symbol attempts
            st).2.alpha_vantage_failed = false →
        st.alpha_vantage_failed = false)
    ∧ (∀ (alpha : Nat → AlphaResp) (yahoo : String → StockQuote)
        (symbol : String) (st : StockState),
        alpha st.alphaCalls = .noData ∨ alpha st.alphaCalls = .netError →
        st.alpha_vantage_failed = false →
        fetch_stock_price true alpha yahoo symbol st =
          (some (yahoo symbol),
           { alpha_vantage_failed := true, alphaCalls := st.alphaCalls + 1 }))
    ∧ (∀ (alpha : Nat → AlphaResp) (yahoo : String → StockQuote)
        (symbol : String) (st : StockState) (n : Nat),
        (∀ k, alpha k = AlphaResp.exn) →
        st.alpha_vantage_failed = false →
        fetch_stock_price_retry true alpha yahoo symbol (n + 1) st =
          (none, StockState.mk false (st.alphaCalls + (n + 1)))) := by
  refine ⟨?_, ?_, ?_, ?_⟩
  · intro hasApiKey alpha yahoo symbol n st h
    simp [fetch_stock_price_retry, fetch_stock_price, h]
  · intro hasApiKey alpha yahoo symbol attempts st h
    exact fetch_stock_price_retry_latch_mono hasApiKey alpha yahoo symbol attempts st h
  · intro alpha yahoo symbol st halpha hlatch
    rcases halpha with h | h <;> simp [fetch_stock_price, hlatch, h]
  · intro alpha yahoo symbol st n hexn hlatch
    exact fetch_stock_price_retry_exn alpha yahoo symbol hexn n st hlatch

/-- C2 witness: with the latch already set by a detected failure, a
concrete decorated call is answered by Yahoo Finance with the state
untouched. -/
theorem C2_witness :
    (StockState.mk true 3).alpha_vantage_failed = true ∧
    fetch_stock_price_retry true (fun _ => AlphaResp.exn)
        (fun _ => StockQuote.price "1.00") "AAPL" STOP_AFTER_ATTEMPT
        (StockState.mk true 3) =
      (some (StockQuote.price "1.00"), StockState.mk true 3) := by
  refine ⟨rfl, ?_⟩
  have h := C2_detected_failure_latch.1 true (fun _ => AlphaResp.exn)
    (fun _ => StockQuote.price "1.00") "AAPL" 4 (StockState.mk true 3) rfl
  simpa [STOP_AFTER_ATTEMPT] using h

/-! ## C4 -/

/-- C4: the code evaluated at the failing input.  The queue holds one
category with the two stories `storyOne, storyTwo`.  The first tick
displays `storyOne` and `get_nowait` removes the pair from the queue;
the rotated entry list is never re-enqueued, so the second and third
ticks display nothing and the queue is left empty — instead of the
cyclic lossless rotation (tick 2 displaying `storyTwo`, the queued
stories unchanged after 2 ticks, tick 3 displaying `storyOne` again)
that the claim and the code's own "Cycle stories" comment describe. -/
theorem C4_rotation_drops_queue :
    runTicks "News" 2 (RotationState.mk [("News", [storyOne, storyTwo])]) =
      ([some storyOne, none], RotationState.mk [])
    ∧ runTicks "News" 3 (RotationState.mk [("News", [storyOne, storyTwo])]) =
      ([some storyOne, none, none], RotationState.mk []) := by
  constructor <;> rfl

/-! ## C5 -/

/-- C5: the cache key of `fetch_image` is `cache_image_path md5hex url`,
computed from the URL alone.  After a first successful fetch stores the
cache file, a further `fetch_image` call for the same URL with any other
width and height returns the cached asset and leaves the state — in
particular the network-call counter — unchanged. -/
theorem C5_image_cache_idempotent (md5hex : String → String) (net : String → ImgFetch)
    (url : String) (w h w2 h2 max_file_size : Nat) (st : ImageCacheState) (r : ImgResp)
    (hmiss : cache_image_path md5hex url ∉ st.files)
    (hok : net url = .ok r)
    (hct : strStartsWith (toLowerAscii r.contentType) "image/" = true)
    (hsize : content_length_exceeds r.contentLength max_file_size = false)
    (hdec : r.decodable = true) :
    fetch_image md5hex net url w h max_file_size st =
      (.fromFile (cache_image_path md5hex url),
       { files := cache_image_path md5hex url :: st.files, netCalls := st.netCalls + 1 })
    ∧ fetch_image md5hex net url w2 h2 max_file_size
        { files := cache_image_path md5hex url :: st.files, netCalls := st.netCalls + 1 } =
      (.fromFile (cache_image_path md5hex url),
       { files := cache_image_path md5hex url :: st.files, netCalls := st.netCalls + 1 }) := by
  constructor
  · simp [fetch_image, hmiss, hok, hct, hsize, hdec]
  · simp [fetch_image]

/-- C5 witness: a concrete URL fetched once at size 2×3 and re-requested
at size 4×5 without a further network call. -/
theorem C5_witness :
    fetch_image (fun s => s) (fun _ => ImgFetch.ok (ImgResp.mk "image/png" (some 100) true))
        "http://img" 2 3 5242880 (ImageCacheState.mk [] 0) =
      (Pixmap.fromFile (cache_image_path (fun s => s) "http://img"),
       ImageCacheState.mk [cache_image_path (fun s => s) "http://img"] 1)
    ∧ fetch_image (fun s => s) (fun _ => ImgFetch.ok (ImgResp.mk "image/png" (some 100) true))
        "http://img" 4 5 5242880
        (ImageCacheState.mk [cache_image_path (fun s => s) "http://img"] 1) =
      (Pixmap.fromFile (cache_image_path (fun s => s) "http://img"),
       ImageCacheState.mk [cache_image_path (fun s => s) "http://img"] 1) :=
  C5_image_cache_idempotent (fun s => s)
    (fun _ => ImgFetch.ok (ImgResp.mk "image/png" (some 100) true))
    "http://img" 2 3 4 5 5242880 (ImageCacheState.mk [] 0)
    (ImgResp.mk "image/png" (some 100) true)
    (by simp) rfl (by decide) (by decide) rfl

/-! ## C6 -/

/-- C6: on any image fetch failure — network error, non-image content
type, Content-Length over the ceiling, or decode failure — `fetch_image`
returns the default placeholder and creates no cache entry (the file
list is unchanged; exactly one network call was made). -/
theorem C6_image_failure_placeholder (md5hex : String → String) (net : String → ImgFetch)
    (url : String) (w h max_file_size : Nat) (st : ImageCacheState)
    (hmiss : cache_image_path md5hex url ∉ st.files)
    (hfail : net url = .netError
      ∨ ∃ r, net url = .ok r ∧
          (strStartsWith (toLowerAscii r.contentType) "image/" = false
            ∨ content_length_exceeds r.contentLength max_file_size = true
            ∨ r.decodable = false)) :
    fetch_image md5hex net url w h max_file_size st =
      (load_default_image w h, { files := st.files, netCalls := st.netCalls + 1 }) := by
  rcases hfail with hne | ⟨r, hokk, hc⟩
  · simp [fetch_image, hmiss, hne]
  · by_cases hct : strStartsWith (toLowerAscii r.contentType) "image/" = true
    · by_cases hsz : content_length_exceeds r.contentLength max_file_size = true
      · simp [fetch_image, hmiss, hokk, hct, hsz]
      · have hdec : r.decodable = false := by
          rcases hc with h1 | h2 | h3
          · rw [hct] at h1; exact absurd h1 (by simp)
          · exact absurd h2 hsz
          · exact h3
        simp [fetch_image, hmiss, hokk, hct, hsz, hdec]
    · simp [fetch_image, hmiss, hokk, hct]

/-- C6 witness: an image URL answered with `Content-Type: text/html`
yields the default placeholder and no cache entry. -/
theorem C6_witness :
    fetch_image (fun s => s) (fun _ => ImgFetch.ok (ImgResp.mk "text/html" none true))
        "http://img" 2 3 5242880 (ImageCacheState.mk [] 0) =
      (load_default_image 2 3, ImageCacheState.mk [] 1) :=
  C6_image_failure_placeholder (fun s => s)
    (fun _ => ImgFetch.ok (ImgResp.mk "text/html" none true))
    "http://img" 2 3 5242880 (ImageCacheState.mk [] 0)
    (by simp)
    (Or.inr ⟨ImgResp.mk "text/html" none true, rfl, Or.inl (by decide)⟩)

/-! ## C10 -/

/-- C10: a story id already in `processed_story_ids` is answered
`already_processed` with the state untouched (no model request, no
narration); and a successful analysis adds the story id to
`processed_story_ids`, returns the model's response, and makes every
later `analyze_text` call for the same story id — under any
environment — a state-preserving no-op returning `already_processed`. -/
theorem C10_analyze_once :
    (∀ (cfg : SentConfig) (story_id : String) (st : SentState),
        story_id ∈ st.processed_story_ids →
        analyze_text cfg story_id st = (.already_processed, st))
    ∧ (∀ (cfg : SentConfig) (story_id : String) (st : SentState)
        (m : String) (ms : List String) (response : String),
        cfg.models = .ok (m :: ms) → cfg.gen = .ok response →
        story_id ∉ st.processed_story_ids →
        story_id ∈ (analyze_text cfg story_id st).2.processed_story_ids
        ∧ (analyze_text cfg story_id st).1 = .result response.trim.toLower
        ∧ ∀ (cfg2 : SentConfig),
            analyze_text cfg2 story_id (analyze_text cfg story_id st).2 =
              (.already_processed, (analyze_text cfg story_id st).2)) := by
  constructor
  · intro cfg story_id st h
    simp [analyze_text, h]
  · intro cfg story_id st m ms response hm hg hnot
    by_cases hts : cfg.tts_speaking = true
    · refine ⟨?_, ?_, ?_⟩
      · simp [analyze_text, hm, hg, hnot, hts]
      · simp [analyze_text, hm, hg, hnot, hts]
      · intro cfg2
        simp [analyze_text, hm, hg, hnot, hts]
    · refine ⟨?_, ?_, ?_⟩
      · simp [analyze_text, hm, hg, hnot, hts]
      · simp [analyze_text, hm, hg, hnot, hts]
      · intro cfg2
        simp [analyze_text, hm, hg, hnot, hts]

/-- C10 witness: a fresh story analyzed successfully returns the
stripped lower-cased model response. -/
theorem C10_witness :
    (analyze_text (SentConfig.mk (ModelsResult.ok ["llama"]) (GenResult.ok " Positive ") false)
        "story-1" (SentState.mk [] 0 0 [])).1 =
      .result " Positive ".trim.toLower :=
  (C10_analyze_once.2
    (SentConfig.mk (ModelsResult.ok ["llama"]) (GenResult.ok " Positive ") false)
    "story-1" (SentState.mk [] 0 0 []) "llama" [] " Positive " rfl rfl (by simp)).2.1

end StreamPulse
namespace StreamPulse

/-! ## C7 -/

/-- C7: completed fetches with zero entries are retryable failures.
Every non-2xx status yields an empty feed from `fetch_rss_feed`; a
response whose parse and scraping fallback both yield zero entries also
yields an empty feed; `fetch_with_retry` never returns an empty feed as
a success; and against an oracle whose every response yields zero
entries, a fetch consumes the initial attempt plus all `RETRY_LIMIT`
retries and then disables the source — exactly as for any other
failure. -/
theorem C7_empty_feed_retryable :
    (∀ resp : HttpResp, 300 ≤ resp.status → resp.status < 600 →
        fetch_rss_feed (.ok resp) = some { entries := [] })
    ∧ (∀ resp : HttpResp, resp.parsed.entries = [] → resp.scraped = [] →
        fetch_rss_feed (.ok resp) = some { entries := [] })
    ∧ (∀ (oracle : FetchOracle) (feed_url : String) (retries : Nat)
        (st : FeedState) (f : Feed),
        (fetch_with_retry oracle feed_url retries st).1 = some f → f.entries ≠ [])
    ∧ (∀ (resps : Nat → FetchResponse) (feed_url : String) (st : FeedState),
        feed_url ∉ st.disabled →
        (∀ n, fetch_rss_feed (resps n) = some { entries := [] }) →
        fetch_with_retry (feedOracle resps) feed_url 0 st =
          (none, { disabled := feed_url :: st.disabled,
                   calls := st.calls + RETRY_LIMIT + 1 })) := by
  refine ⟨?_, ?_, ?_, ?_⟩
  · intro resp h1 h2
    simp only [fetch_rss_feed]
    split_ifs <;> first | rfl | (exfalso; omega)
  · intro resp hp hs
    simp only [fetch_rss_feed]
    split_ifs <;> simp_all
  · intro oracle feed_url retries st f h
    exact fetch_with_retry_no_empty_success oracle feed_url retries st f h
  · intro resps feed_url st hdis hall
    have h := fetch_with_retry_all_fail (feedOracle resps) feed_url 0 st hdis
      (by
        intro k _
        show attemptOk (fetch_rss_feed (resps (st.calls + k))) = none
        rw [hall (st.calls + k)]
        rfl)
      (Nat.zero_le _)
    rw [h]
    simp [Nat.sub_zero, Nat.add_assoc]

/-- C7 witness: an oracle answering every attempt with a DNS error (an
empty completed fetch) exhausts all four attempts and disables the
source. -/
theorem C7_witness :
    ("http://feed2" ∉ ([] : List String)) ∧
    fetch_with_retry (feedOracle (fun _ => FetchResponse.dnsError)) "http://feed2" 0
        (FeedState.mk [] 0) =
      (none, FeedState.mk ["http://feed2"] 4) := by
  refine ⟨by simp, ?_⟩
  have h := C7_empty_feed_retryable.2.2.2 (fun _ => FetchResponse.dnsError) "http://feed2"
    (FeedState.mk [] 0) (by simp) (fun _ => rfl)
  simpa [RETRY_LIMIT] using h

/-! ## C8 -/

theorem fetch_feed_entries_step_length (oracle : FetchOracle) (acc : List Entry × FeedState)
    (u : String) :
    (fetch_feed_entries_step oracle acc u).1.length ≤ acc.1.length + 3 := by
  unfold fetch_feed_entries_step
  cases hfr : fetch_with_retry oracle u 0 acc.2 with
  | mk o st2 =>
    cases o with
    | some feed =>
      simp only [List.length_append]
      have h3 : (feed.entries.take 3).length ≤ 3 := by
        rw [List.length_take]
        exact Nat.min_le_left _ _
      omega
    | none => simp

theorem fetch_feed_entries_foldl_length (oracle : FetchOracle) :
    ∀ (urls : List String) (acc : List Entry × FeedState),
      (urls.foldl (fetch_feed_entries_step oracle) acc).1.length ≤
        acc.1.length + 3 * urls.length := by
  intro urls
  induction urls with
  | nil => intro acc; simp
  | cons u us ih =>
    intro acc
    rw [List.foldl_cons]
    have h1 := ih (fetch_feed_entries_step oracle acc u)
    have h2 := fetch_feed_entries_step_length oracle acc u
    simp only [List.length_cons]
    omega

/-- C8: each fetched feed contributes only its first 3 entries to the
category's entry list: the list built from a single feed is exactly
`feed.entries.take 3` (or empty on failure), the list built from any
feed set has at most `3 × number of feeds` entries, and a category with
6 feeds enqueues at most 18 stories. -/
theorem C8_three_entries_per_feed :
    (∀ (oracle : FetchOracle) (rss_feeds : List String) (st : FeedState),
        (fetch_feed_entries oracle rss_feeds st).1.length ≤ 3 * rss_feeds.length)
    ∧ (∀ (oracle : FetchOracle) (feed_url : String) (st : FeedState),
        (fetch_feed_entries oracle [feed_url] st).1 =
          match (fetch_with_retry oracle feed_url 0 st).1 with
          | some feed => feed.entries.take 3
          | none => [])
    ∧ (∀ (oracle : FetchOracle) (rss_feeds : List String) (st : FeedState),
        rss_feeds.length = 6 →
        (fetch_feed_entries oracle rss_feeds st).1.length ≤ 18) := by
  have main : ∀ (oracle : FetchOracle) (rss_feeds : List String) (st : FeedState),
      (fetch_feed_entries oracle rss_feeds st).1.length ≤ 3 * rss_feeds.length := by
    intro oracle rss_feeds st
    have h := fetch_feed_entries_foldl_length oracle rss_feeds ([], st)
    simpa [fetch_feed_entries] using h
  refine ⟨main, ?_, ?_⟩
  · intro oracle feed_url st
    cases hfr : fetch_with_retry oracle feed_url 0 st with
    | mk o st2 =>
      cases o with
      | some feed => simp [fetch_feed_entries, fetch_feed_entries_step, hfr]
      | none => simp [fetch_feed_entries, fetch_feed_entries_step, hfr]
  · intro oracle rss_feeds st hlen
    have h := main oracle rss_feeds st
    rw [hlen] at h
    omega

/-- C8 witness: six concrete feeds against an always-failing oracle
enqueue at most 18 stories. -/
theorem C8_witness :
    (fetch_feed_entries (fun _ => (none : Option Feed))
        ["u1", "u2", "u3", "u4", "u5", "u6"] (FeedState.mk [] 0)).1.length ≤ 18 :=
  C8_three_entries_per_feed.2.2 (fun _ => (none : Option Feed))
    ["u1", "u2", "u3", "u4", "u5", "u6"] (FeedState.mk [] 0) rfl

end StreamPulse
namespace StreamPulse

/-! ## Progress lemmas (C3) -/

theorem progress_value_mono (total : Nat) (ht : 0 < total) {a b : Nat} (hab : a ≤ b) :
    progress_value total a ≤ progress_value total b := by
  unfold progress_value
  have hab2 : (a : ℚ) ≤ (b : ℚ) := by exact_mod_cast hab
  have ht2 : (0 : ℚ) ≤ (total : ℚ) := by positivity
  gcongr

theorem progress_value_total (total : Nat) (ht : 0 < total) :
    progress_value total total = 100 := by
  unfold progress_value
  have ht2 : (total : ℚ) ≠ 0 := Nat.cast_ne_zero.mpr (by omega)
  rw [div_self ht2, one_mul]

theorem progress_value_eq_100 (total loaded : Nat) (ht : 0 < total)
    (h : progress_value total loaded = 100) : loaded = total := by
  unfold progress_value at h
  have ht2 : (total : ℚ) ≠ 0 := Nat.cast_ne_zero.mpr (by omega)
  field_simp at h
  have h2 : (loaded : ℚ) = (total : ℚ) := by linarith
  exact_mod_cast h2

theorem runLoading_chain (total : Nat) (ht : 0 < total) :
    ∀ (events : List LoadEvent) (loaded : Nat) (fL sL : Bool),
      countFeedDone events + loaded ≤ total →
      (fL = true → loaded = total) →
      List.Chain' (· ≤ ·)
        (progress_value total loaded ::
          (runLoading total events loaded fL sL).map Emission.value) := by
  intro events
  induction events with
  | nil =>
    intro loaded fL sL _ _
    simp [runLoading]
  | cons ev es ih =>
    intro loaded fL sL hcount hfl
    cases ev with
    | feedDone =>
      have hcount2 : countFeedDone es + (loaded + 1) ≤ total := by
        simp only [countFeedDone] at hcount
        omega
      by_cases hl : loaded + 1 = total
      · by_cases hsl : sL = true
        · subst hsl
          simp only [runLoading, if_pos hl, if_pos rfl, List.map_cons]
          have hpv : progress_value total (loaded + 1) = 100 := by
            rw [hl]
            exact progress_value_total total ht
          refine List.chain'_cons.mpr ⟨progress_value_mono total ht (by omega), ?_⟩
          refine List.chain'_cons.mpr ⟨by rw [hpv], ?_⟩
          have hIH := ih (loaded + 1) true true hcount2 (fun _ => hl)
          rwa [hpv] at hIH
        · have hsl2 : sL = false := by
            cases sL
            · rfl
            · exact absurd rfl hsl
          subst hsl2
          simp only [runLoading, if_pos hl, Bool.false_eq_true, if_false, List.map_cons]
          refine List.chain'_cons.mpr ⟨progress_value_mono total ht (by omega), ?_⟩
          exact ih (loaded + 1) true false hcount2 (fun _ => hl)
      · simp only [runLoading, if_neg hl, List.map_cons]
        refine List.chain'_cons.mpr ⟨progress_value_mono total ht (by omega), ?_⟩
        exact ih (loaded + 1) fL sL hcount2 (by
          intro hf
          have h2 := hfl hf
          omega)
    | stockDone =>
      have hcount2 : countFeedDone es + loaded ≤ total := by
        simp only [countFeedDone] at hcount
        omega
      by_cases hfL : fL = true
      · have hload : loaded = total := hfl hfL
        subst hfL
        simp only [runLoading, if_pos rfl, List.map_cons]
        have hpv : progress_value total loaded = 100 := by
          rw [hload]
          exact progress_value_total total ht
        refine List.chain'_cons.mpr ⟨by rw [hpv], ?_⟩
        have hIH := ih loaded true true hcount2 (fun _ => hload)
        rwa [hpv] at hIH
      · have hfL2 : fL = false := by
          cases fL
          · rfl
          · exact absurd rfl hfL
        subst hfL2
        simp only [runLoading, Bool.false_eq_true, if_false]
        exact ih loaded false true hcount2 (by intro h; cases h)

theorem runLoading_hundred (total : Nat) (ht : 0 < total) :
    ∀ (events : List LoadEvent) (loaded : Nat) (fL sL : Bool),
      countFeedDone events + loaded ≤ total →
      (fL = true → loaded = total) →
      ∀ e ∈ runLoading total events loaded fL sL, e.value = 100 → e.loadedFeeds = total := by
  intro events
  induction events with
  | nil =>
    intro loaded fL sL _ _ e he
    simp [runLoading] at he
  | cons ev es ih =>
    intro loaded fL sL hcount hfl e he hval
    cases ev with
    | feedDone =>
      have hcount2 : countFeedDone es + (loaded + 1) ≤ total := by
        simp only [countFeedDone] at hcount
        omega
      by_cases hl : loaded + 1 = total
      · by_cases hsl : sL = true
        · subst hsl
          simp only [runLoading, if_pos hl, if_pos rfl] at he
          rcases List.mem_cons.mp he with he1 | he2
          · rw [he1] at hval ⊢
            exact progress_value_eq_100 total (loaded + 1) ht hval
          · rcases List.mem_cons.mp he2 with he3 | he4
            · rw [he3]
              exact hl
            · exact ih (loaded + 1) true true hcount2 (fun _ => hl) e he4 hval
        · have hsl2 : sL = false := by
            cases sL
            · rfl
            · exact absurd rfl hsl
          subst hsl2
          simp only [runLoading, if_pos hl, Bool.false_eq_true, if_false] at he
          rcases List.mem_cons.mp he with he1 | he2
          · rw [he1] at hval ⊢
            exact progress_value_eq_100 total (loaded + 1) ht hval
          · exact ih (loaded + 1) true false hcount2 (fun _ => hl) e he2 hval
      · simp only [runLoading, if_neg hl] at he
        rcases List.mem_cons.mp he with he1 | he2
        · rw [he1] at hval ⊢
          exact progress_value_eq_100 total (loaded + 1) ht hval
        · exact ih (loaded + 1) fL sL hcount2 (by
            intro hf
            have h2 := hfl hf
            omega) e he2 hval
    | stockDone =>
      have hcount2 : countFeedDone es + loaded ≤ total := by
        simp only [countFeedDone] at hcount
        omega
      by_cases hfL : fL = true
      · subst hfL
        simp only [runLoading, if_pos rfl] at he
        rcases List.mem_cons.mp he with he1 | he2
        · rw [he1]
          exact hfl rfl
        · exact ih loaded true true hcount2 hfl e he2 hval
      · have hfL2 : fL = false := by
          cases fL
          · rfl
          · exact absurd rfl hfL
        subst hfL2
        simp only [runLoading, Bool.false_eq_true, if_false] at he
        exact ih loaded false true hcount2 (by intro h; cases h) e he hval

/-! ## C3 -/

/-- C3 counterexample: with two feeds and the stock fetch still pending,
the feed progress callback emits 100 as soon as the second feed is
processed: the second emission has value 100 while `stockLoaded` is
still false, so 100 is emitted before every source (feeds and quotes)
has a terminal outcome. -/
theorem C3_counterexample :
    runLoading 2 [LoadEvent.feedDone, LoadEvent.feedDone, LoadEvent.stockDone] 0 false false =
      [{ value := 50, loadedFeeds := 1, stockLoaded := false },
       { value := 100, loadedFeeds := 2, stockLoaded := false },
       { value := 100, loadedFeeds := 2, stockLoaded := true }] := by
  norm_num [runLoading, progress_value]

/-- C3 (amended): the sequence of progress values emitted during loading
is monotonically non-decreasing, and an emission of 100 occurs exactly
when every feed has reached a terminal outcome: the feed progress
fraction counts feeds alone, so 100 is emitted as soon as all feeds are
processed even while the stock-quote fetch is still pending, and only
the separate completion check additionally waits for the stock data. -/
theorem C3_progress_monotone (total : Nat) (events : List LoadEvent)
    (ht : 0 < total) (hcount : countFeedDone events ≤ total) :
    List.Chain' (· ≤ ·) ((runLoading total events 0 false false).map Emission.value)
    ∧ ∀ e ∈ runLoading total events 0 false false, e.value = 100 → e.loadedFeeds = total := by
  constructor
  · have h := runLoading_chain total ht events 0 false false (by omega) (by intro h2; cases h2)
    exact h.tail
  · intro e he hv
    exact runLoading_hundred total ht events 0 false false (by omega)
      (by intro h2; cases h2) e he hv

/-- C3 witness: the two-feeds-then-stock trace satisfies the hypotheses
and its emitted values form a non-decreasing chain. -/
theorem C3_witness :
    (0 < 2) ∧
    countFeedDone [LoadEvent.feedDone, LoadEvent.feedDone, LoadEvent.stockDone] ≤ 2 ∧
    List.Chain' (· ≤ ·)
      ((runLoading 2 [LoadEvent.feedDone, LoadEvent.feedDone, LoadEvent.stockDone]
          0 false false).map Emission.value) :=
  ⟨by decide, by decide,
   (C3_progress_monotone 2 [LoadEvent.feedDone, LoadEvent.feedDone, LoadEvent.stockDone]
      (by decide) (by decide)).1⟩

end StreamPulse
